import Mathlib

/-
Verification of getMODIS (src/getMODIS.py), a thin client for the ORNL MODIS
REST web service.  The file shallowly embeds the module: the network and the
JSON decoder (requests.get / json.loads) are modeled by an explicit oracle
(World); every function additionally returns the ordered trace of GET
requests it issued; Python dictionaries are modeled by insertion-ordered
association lists with Python dict semantics (keys, pop, item lookup, item
assignment); parameter values are modeled by their query-string
serialization.  get_data mutates its argument dictionary in place in the
source, so the embedding threads the dictionary explicitly and returns its
final contents.
-/

/-- Decoded JSON documents, the result of json.loads.  Numeric payloads are
modeled by integers; no claim depends on numeric values. -/
inductive Json where
  | null : Json
  | bool (b : Bool) : Json
  | num (n : Int) : Json
  | str (s : String) : Json
  | arr (items : List Json) : Json
  | obj (fields : List (String × Json)) : Json

/-- An outbound HTTP GET request: the URL string handed to requests.get
(which for get_dates already embeds the query string), the params mapping
serialized by requests.get in insertion order, and the extra headers. -/
structure Request where
  url : String
  params : List (String × String)
  headers : List (String × String)
  deriving DecidableEq

/-- Failure outcomes of the embedded functions: the explicit ValueError of
get_data (invalidParams, carrying the offending keys), Python KeyError on a
dict lookup, Python TypeError on a malformed bands document, a transport
failure inside requests.get, and a json.loads decode failure. -/
inductive Err where
  | invalidParams (keys : List String) : Err
  | keyError (key : String) : Err
  | typeError : Err
  | transport : Err
  | decodeError : Err
  deriving DecidableEq

/-- Python dict keys, in insertion order. -/
def Dict.keys {V : Type} (d : List (String × V)) : List String :=
  d.map Prod.fst

/-- Python dict item lookup d[k]: the value at key k, none when absent. -/
def Dict.get? {V : Type} : List (String × V) → String → Option V
  | [], _ => none
  | (k', v) :: rest, k => if k' = k then some v else Dict.get? rest k

/-- Python d.pop(k): the value at key k together with the dictionary with
that entry removed; none (a KeyError in Python) when the key is absent. -/
def Dict.pop {V : Type} : List (String × V) → String → Option (V × List (String × V))
  | [], _ => none
  | (k', v) :: rest, k =>
      if k' = k then some (v, rest)
      else
        match Dict.pop rest k with
        | none => none
        | some (v', rest') => some (v', (k', v) :: rest')

/-- Python dict item assignment d[k] = v: replaces the value in place when
the key is present (keeping its position), appends the entry otherwise. -/
def Dict.set {V : Type} : List (String × V) → String → V → List (String × V)
  | [], k, v => [(k, v)]
  | (k', v') :: rest, k, v =>
      if k' = k then (k, v) :: rest else (k', v') :: Dict.set rest k v

/-- The environment oracle: respond models the network (none is a transport
failure inside requests.get), decode models json.loads (none is a decode
failure).  Both are fixed for the duration of a call, modeling a
deterministic environment. -/
structure World where
  respond : Request → Option String
  decode : String → Option Json

/-- Fixed base URL of the service (source line 25). -/
def modis_rest_api : String := "https://modis.ornl.gov/rst/api/v1/"

/-- The JSON Accept header (source line 26). -/
def json_header : List (String × String) := [("Accept", "application/json")]

/-- The default_args dictionary of get_data (source lines 87-101); only its
keys are ever consulted.  Values are all None. -/
def default_args : List (String × Option String) :=
  [("product", none), ("siteid", none), ("network", none),
   ("network_siteid", none), ("band", none), ("latitude", none),
   ("longitude", none), ("startDate", none), ("endDate", none),
   ("kmAboveBelow", none), ("kmLeftRight", none), ("email", none),
   ("uid", none)]

/-- Shared plumbing: requests.get followed by json.loads, as an Except. -/
def fetch_json (w : World) (req : Request) : Except Err Json :=
  match w.respond req with
  | none => .error .transport
  | some body =>
    match w.decode body with
    | none => .error .decodeError
    | some j => .ok j

/-- get_products (source lines 129-146): one GET to the products resource
with the JSON Accept header; the parsed body is returned.  The second
component is the trace of issued requests. -/
def get_products (w : World) : Except Err Json × List Request :=
  let req : Request := ⟨modis_rest_api ++ "products", [], json_header⟩
  (fetch_json w req, [req])

/-- get_bands (source lines 149-167): one GET to product/bands with the
JSON Accept header; the parsed body is returned, with the request trace. -/
def get_bands (w : World) (product : String) : Except Err Json × List Request :=
  let req : Request := ⟨modis_rest_api ++ product ++ "/bands", [], json_header⟩
  (fetch_json w req, [req])

/-- get_dates (source lines 170-194): the query string is concatenated into
the URL itself, latitude first, then longitude, before one GET with the
JSON Accept header. -/
def get_dates (w : World) (product longitude latitude : String) :
    Except Err Json × List Request :=
  let request_string :=
    modis_rest_api ++ product ++ "/dates?" ++ ("latitude=" ++ latitude ++ "&")
      ++ ("longitude=" ++ longitude)
  let req : Request := ⟨request_string, [], json_header⟩
  (fetch_json w req, [req])

/-- Python subscription j[k] on a decoded JSON document: a value only when
the document is an object containing the key. -/
def Json.lookup : Json → String → Option Json
  | .obj fields, k => Dict.get? fields k
  | _, _ => none

/-- The list comprehension of source line 118: the band field of every
entry, in order; fails when an entry is not an object with a string-valued
band field. -/
def extract_names : List Json → Except Err (List String)
  | [] => .ok []
  | item :: rest =>
    match Json.lookup item "band" with
    | some (.str s) =>
      match extract_names rest with
      | .ok names => .ok (s :: names)
      | .error e => .error e
    | _ => .error .typeError

/-- Source lines 116-118 after the get_bands call: index the bands document
at the bands key and extract the ordered band names. -/
def extract_band_names (bjson : Json) : Except Err (List String) :=
  match Json.lookup bjson "bands" with
  | some (.arr items) => extract_names items
  | some _ => .error .typeError
  | none => .error (.keyError "bands")

/-- The value get_data returns: the parsed body directly in single-band
mode, a dictionary keyed by band name in all-bands mode. -/
inductive GDResult where
  | single (doc : Json) : GDResult
  | multi (byBand : List (String × Json)) : GDResult

/-- Complete outcome of a get_data call: the returned value or the raised
error, the ordered trace of issued GET requests, and the final contents of
the caller's search_params dictionary (the source mutates it in place). -/
structure GetDataOut where
  result : Except Err GDResult
  trace : List Request
  params : List (String × String)

/-- The for-loop of source lines 120-124, threading the mutated
search_params dictionary, the results dictionary and the request trace. -/
def subsetLoop (w : World) (url : String) :
    List String → List (String × String) → List (String × Json) → List Request →
      Except Err (List (String × Json)) × List (String × String) × List Request
  | [], sp, results, tr => (.ok results, sp, tr)
  | b :: rest, sp, results, tr =>
    let sp' := Dict.set sp "band" b
    let req : Request := ⟨url, sp', []⟩
    match fetch_json w req with
    | .error e => (.error e, sp', tr ++ [req])
    | .ok j => subsetLoop w url rest sp' (Dict.set results b j) (tr ++ [req])

/-- The key-set difference of source line 102: the supplied keys that are
not keys of default_args (in supplied order; Python forms an unordered
set of them). -/
def param_diff (search_params : List (String × String)) : List String :=
  (Dict.keys search_params).filter
    (fun k => !(Dict.keys default_args).contains k)

/-- get_data (source lines 29-126): validate the supplied keys against
default_args, pop product, build the subset URL, then either issue a single
subset GET (band not all) or call get_bands once and issue one subset GET
per listed band, collecting results keyed by band name. -/
def get_data (w : World) (search_params : List (String × String)) : GetDataOut :=
  let diff := param_diff search_params
  if diff ≠ [] then
    ⟨.error (.invalidParams diff), [], search_params⟩
  else
    match Dict.pop search_params "product" with
    | none => ⟨.error (.keyError "product"), [], search_params⟩
    | some (product, sp) =>
      let subset_url := modis_rest_api ++ product ++ "/subset?"
      match Dict.get? sp "band" with
      | none => ⟨.error (.keyError "band"), [], sp⟩
      | some bandv =>
        if bandv ≠ "all" then
          let req : Request := ⟨subset_url, sp, []⟩
          match fetch_json w req with
          | .error e => ⟨.error e, [req], sp⟩
          | .ok j => ⟨.ok (.single j), [req], sp⟩
        else
          match get_bands w product with
          | (.error e, reqs) => ⟨.error e, reqs, sp⟩
          | (.ok bjson, reqs) =>
            match extract_band_names bjson with
            | .error e => ⟨.error e, reqs, sp⟩
            | .ok bands =>
              match subsetLoop w subset_url bands sp [] [] with
              | (res, spFinal, tr) => ⟨res.map GDResult.multi, reqs ++ tr, spFinal⟩

/-- Concrete search_params with band all, matching the example driver of
source lines 197-204 (values in their query-string serialization). -/
def spAll : List (String × String) :=
  [("product", "MYD09A1"), ("latitude", "39.56499"),
   ("longitude", "-121.55527"), ("band", "all"), ("startDate", "A2003101"),
   ("endDate", "A2003111"), ("kmAboveBelow", "1"), ("kmLeftRight", "1")]

/-- Concrete search_params with a single band, as in the example driver. -/
def spSingle : List (String × String) :=
  [("product", "MYD09A1"), ("latitude", "39.56499"),
   ("longitude", "-121.55527"), ("band", "sur_refl_b06"),
   ("startDate", "A2003101"), ("endDate", "A2003111"),
   ("kmAboveBelow", "1"), ("kmLeftRight", "1")]

/-- Concrete search_params with an unrecognized key. -/
def spBad : List (String × String) :=
  [("product", "MYD09A1"), ("bandz", "all")]

/-- Concrete search_params without the product key. -/
def spNoProduct : List (String × String) :=
  [("latitude", "39.56499"), ("band", "sur_refl_b06")]

/-- Concrete search_params holding only product and band: every required
coordinate and date key is absent. -/
def spMinimal : List (String × String) :=
  [("product", "MYD09A1"), ("band", "sur_refl_b06")]

/-- A concrete bands document listing bands b1 and b2, shaped like the
service's bands resource. -/
def bandsJson : Json :=
  .obj [("bands", .arr [.obj [("band", .str "b1")], .obj [("band", .str "b2")]])]

/-- A concrete deterministic environment in which every request succeeds:
catalog requests (recognizable by their Accept header) return the bands
document, subset requests return a body determined by their band query
parameter. -/
def wAll : World where
  respond := fun req =>
    if req.headers = json_header then some "BANDS"
    else
      match Dict.get? req.params "band" with
      | some "b1" => some "R1"
      | some "b2" => some "R2"
      | some "sur_refl_b06" => some "RS"
      | _ => none
  decode := fun s =>
    if s = "BANDS" then some bandsJson
    else if s = "R1" then some (.str "r1")
    else if s = "R2" then some (.str "r2")
    else if s = "RS" then some (.str "rs")
    else none

/-- A concrete environment in which the subset request for band b2 fails at
the transport layer while everything else succeeds. -/
def wFail : World where
  respond := fun req =>
    if req.headers = json_header then some "BANDS"
    else
      match Dict.get? req.params "band" with
      | some "b1" => some "R1"
      | _ => none
  decode := fun s =>
    if s = "BANDS" then some bandsJson
    else if s = "R1" then some (.str "r1")
    else none

theorem Dict.get?_set_self {V : Type} (d : List (String × V)) (k : String) (v : V) :
    Dict.get? (Dict.set d k v) k = some v := by
  induction d with
  | nil => simp [Dict.set, Dict.get?]
  | cons hd tl ih =>
    obtain ⟨k', v'⟩ := hd
    by_cases h : k' = k
    · simp [Dict.set, h, Dict.get?]
    · simp [Dict.set, h, Dict.get?, ih]

theorem Dict.set_set {V : Type} (d : List (String × V)) (k : String) (v v' : V) :
    Dict.set (Dict.set d k v) k v' = Dict.set d k v' := by
  induction d with
  | nil => simp [Dict.set]
  | cons hd tl ih =>
    obtain ⟨k', w⟩ := hd
    by_cases h : k' = k
    · simp [Dict.set, h]
    · simp [Dict.set, h, ih]

theorem Dict.mem_keys_set {V : Type} (d : List (String × V)) (k a : String) (v : V) :
    a ∈ Dict.keys (Dict.set d k v) ↔ a = k ∨ a ∈ Dict.keys d := by
  induction d with
  | nil => simp [Dict.set, Dict.keys]
  | cons hd tl ih =>
    obtain ⟨k', w⟩ := hd
    by_cases h : k' = k
    · subst h
      simp [Dict.set, Dict.keys]
    · simp only [Dict.set, if_neg h, Dict.keys, List.map_cons, List.mem_cons] at ih ⊢
      tauto

theorem Dict.set_eq_append {V : Type} {d : List (String × V)} {k : String}
    (h : k ∉ Dict.keys d) (v : V) : Dict.set d k v = d ++ [(k, v)] := by
  induction d with
  | nil => simp [Dict.set]
  | cons hd tl ih =>
    obtain ⟨k', w⟩ := hd
    simp only [Dict.keys, List.map_cons, List.mem_cons, not_or] at h
    have hk : k' ≠ k := fun hk => h.1 hk.symm
    simp [Dict.set, hk, ih (by simpa [Dict.keys] using h.2)]

theorem Dict.keys_nil {V : Type} : Dict.keys ([] : List (String × V)) = [] := rfl

theorem Dict.keys_cons {V : Type} (k : String) (v : V) (d : List (String × V)) :
    Dict.keys ((k, v) :: d) = k :: Dict.keys d := rfl

theorem Dict.pop_eq_none {V : Type} (d : List (String × V)) (k : String) :
    Dict.pop d k = none ↔ k ∉ Dict.keys d := by
  induction d with
  | nil => simp [Dict.pop, Dict.keys]
  | cons hd tl ih =>
    obtain ⟨k', v⟩ := hd
    by_cases h : k' = k
    · subst h
      simp [Dict.pop, Dict.keys_cons]
    · cases hp : Dict.pop tl k with
      | none =>
        have hn : k ∉ Dict.keys tl := ih.mp hp
        simp only [Dict.pop, if_neg h, hp, Dict.keys_cons, List.mem_cons, not_or]
        exact iff_of_true trivial ⟨fun hk => h hk.symm, hn⟩
      | some pr =>
        have hmem : k ∈ Dict.keys tl := by
          by_contra hk
          rw [ih.mpr hk] at hp
          exact Option.noConfusion hp
        simp only [Dict.pop, if_neg h, hp, Dict.keys_cons, List.mem_cons, not_or]
        exact iff_of_false (by simp) (fun hc => hc.2 hmem)

theorem Dict.pop_eq_some_of_mem {V : Type} {d : List (String × V)} {k : String}
    (h : k ∈ Dict.keys d) : ∃ v d', Dict.pop d k = some (v, d') := by
  cases hp : Dict.pop d k with
  | none => exact absurd ((Dict.pop_eq_none d k).mp hp) (by simp [h])
  | some pr => exact ⟨pr.1, pr.2, by simp⟩

theorem Dict.mem_keys_pop_iff {V : Type} :
    ∀ {d : List (String × V)} {k : String} {v : V} {d' : List (String × V)}
      {a : String}, a ≠ k → Dict.pop d k = some (v, d') →
      (a ∈ Dict.keys d ↔ a ∈ Dict.keys d')
  | [], k, v, d', a, _, hp => by simp [Dict.pop] at hp
  | (k', w) :: tl, k, v, d', a, ha, hp => by
    by_cases h : k' = k
    · subst h
      simp only [Dict.pop, if_pos rfl, Option.some.injEq, Prod.mk.injEq] at hp
      obtain ⟨-, rfl⟩ := hp
      simp [Dict.keys, fun hk => ha (hk : a = k')]
    · simp only [Dict.pop, if_neg h] at hp
      cases htl : Dict.pop tl k with
      | none => simp [htl] at hp
      | some pr =>
        obtain ⟨v', rest'⟩ := pr
        simp only [htl, Option.some.injEq, Prod.mk.injEq] at hp
        obtain ⟨rfl, rfl⟩ := hp
        have := Dict.mem_keys_pop_iff (d := tl) ha htl
        simp only [Dict.keys, List.map_cons, List.mem_cons] at this ⊢
        tauto

theorem Dict.not_mem_keys_pop {V : Type} :
    ∀ {d : List (String × V)} {k : String} {v : V} {d' : List (String × V)},
      (Dict.keys d).Nodup → Dict.pop d k = some (v, d') → k ∉ Dict.keys d'
  | [], k, v, d', _, hp => by simp [Dict.pop] at hp
  | (k', w) :: tl, k, v, d', hnd, hp => by
    simp only [Dict.keys, List.map_cons, List.nodup_cons] at hnd
    by_cases h : k' = k
    · subst h
      simp only [Dict.pop, if_pos rfl, Option.some.injEq, Prod.mk.injEq] at hp
      obtain ⟨-, rfl⟩ := hp
      exact hnd.1
    · simp only [Dict.pop, if_neg h] at hp
      cases htl : Dict.pop tl k with
      | none => simp [htl] at hp
      | some pr =>
        obtain ⟨v', rest'⟩ := pr
        simp only [htl, Option.some.injEq, Prod.mk.injEq] at hp
        obtain ⟨rfl, rfl⟩ := hp
        have := Dict.not_mem_keys_pop (d := tl) hnd.2 htl
        simp only [Dict.keys, List.map_cons, List.mem_cons] at this ⊢
        exact fun hk => hk.elim (fun hk => h hk.symm) this

theorem Dict.get?_eq_none {V : Type} (d : List (String × V)) (k : String) :
    Dict.get? d k = none ↔ k ∉ Dict.keys d := by
  induction d with
  | nil => simp [Dict.get?, Dict.keys]
  | cons hd tl ih =>
    obtain ⟨k', v⟩ := hd
    by_cases h : k' = k
    · subst h
      simp [Dict.get?, Dict.keys_cons]
    · simp only [Dict.get?, if_neg h, Dict.keys_cons, List.mem_cons, not_or, ih]
      exact ⟨fun hn => ⟨fun hk => h hk.symm, hn⟩, And.right⟩

theorem Dict.get?_eq_some_of_mem {V : Type} {d : List (String × V)} {k : String}
    (h : k ∈ Dict.keys d) : ∃ v, Dict.get? d k = some v := by
  cases hg : Dict.get? d k with
  | none => exact absurd ((Dict.get?_eq_none d k).mp hg) (by simp [h])
  | some v => exact ⟨v, rfl⟩

theorem subsetLoop_params_aux (sp : List (String × String)) (b : String)
    (rest : List String) :
    (match (b :: rest).getLast? with
     | none => sp
     | some l => Dict.set sp "band" l) =
    (match rest.getLast? with
     | none => Dict.set sp "band" b
     | some l => Dict.set (Dict.set sp "band" b) "band" l) := by
  cases rest with
  | nil => simp
  | cons r rs =>
    rw [List.getLast?_cons_cons]
    cases hgl : (r :: rs).getLast? with
    | none => exact absurd (List.getLast?_eq_none_iff.mp hgl) (List.cons_ne_nil r rs)
    | some l => simp [Dict.set_set]

theorem subsetLoop_ok (w : World) (url : String) (body : String → String)
    (jv : String → Json) (bs : List String) :
    ∀ (sp : List (String × String)) (results : List (String × Json))
      (tr : List Request),
      (∀ b ∈ bs, w.respond ⟨url, Dict.set sp "band" b, []⟩ = some (body b) ∧
        w.decode (body b) = some (jv b)) →
      subsetLoop w url bs sp results tr =
        (.ok (bs.foldl (fun acc b => Dict.set acc b (jv b)) results),
         (match bs.getLast? with
          | none => sp
          | some l => Dict.set sp "band" l),
         tr ++ bs.map (fun b => ⟨url, Dict.set sp "band" b, []⟩)) := by
  induction bs with
  | nil => intro sp results tr _; simp [subsetLoop]
  | cons b rest ih =>
    intro sp results tr h
    obtain ⟨hr, hd⟩ := h b (List.mem_cons_self b rest)
    have hfetch : fetch_json w ⟨url, Dict.set sp "band" b, []⟩ = .ok (jv b) := by
      simp [fetch_json, hr, hd]
    have hrest : ∀ b' ∈ rest,
        w.respond ⟨url, Dict.set (Dict.set sp "band" b) "band" b', []⟩ =
          some (body b') ∧ w.decode (body b') = some (jv b') := by
      intro b' hb'
      rw [Dict.set_set]
      exact h b' (List.mem_cons_of_mem b hb')
    have hIH := ih (Dict.set sp "band" b) (Dict.set results b (jv b))
      (tr ++ [(⟨url, Dict.set sp "band" b, []⟩ : Request)]) hrest
    simp only [subsetLoop, hfetch]
    rw [hIH, subsetLoop_params_aux]
    simp [Dict.set_set, List.foldl_cons]

theorem subsetLoop_fail (w : World) (url : String) (body : String → String)
    (jv : String → Json) (bfail : String) (post : List String) (pre : List String) :
    ∀ (sp : List (String × String)) (results : List (String × Json))
      (tr : List Request),
      (∀ b ∈ pre, w.respond ⟨url, Dict.set sp "band" b, []⟩ = some (body b) ∧
        w.decode (body b) = some (jv b)) →
      (w.respond ⟨url, Dict.set sp "band" bfail, []⟩ = none ∨
        ∃ s, w.respond ⟨url, Dict.set sp "band" bfail, []⟩ = some s ∧
          w.decode s = none) →
      ∃ e, subsetLoop w url (pre ++ bfail :: post) sp results tr =
          (.error e, Dict.set sp "band" bfail,
           tr ++ (pre ++ [bfail]).map (fun b => ⟨url, Dict.set sp "band" b, []⟩)) ∧
        (e = Err.transport ∨ e = Err.decodeError) := by
  induction pre with
  | nil =>
    intro sp results tr _ hfail
    rcases hfail with hfail | ⟨s, hs, hds⟩
    · refine ⟨Err.transport, ?_, Or.inl rfl⟩
      simp [subsetLoop, fetch_json, hfail]
    · refine ⟨Err.decodeError, ?_, Or.inr rfl⟩
      simp [subsetLoop, fetch_json, hs, hds]
  | cons b pre' ih =>
    intro sp results tr h hfail
    obtain ⟨hr, hd⟩ := h b (List.mem_cons_self b pre')
    have hfetch : fetch_json w ⟨url, Dict.set sp "band" b, []⟩ = .ok (jv b) := by
      simp [fetch_json, hr, hd]
    have hpre' : ∀ b' ∈ pre',
        w.respond ⟨url, Dict.set (Dict.set sp "band" b) "band" b', []⟩ =
          some (body b') ∧ w.decode (body b') = some (jv b') := by
      intro b' hb'
      rw [Dict.set_set]
      exact h b' (List.mem_cons_of_mem b hb')
    have hfail' :
        w.respond ⟨url, Dict.set (Dict.set sp "band" b) "band" bfail, []⟩ = none ∨
        ∃ s, w.respond ⟨url, Dict.set (Dict.set sp "band" b) "band" bfail, []⟩ =
          some s ∧ w.decode s = none := by
      rw [Dict.set_set]
      exact hfail
    obtain ⟨e, heq, he⟩ := ih (Dict.set sp "band" b) (Dict.set results b (jv b))
      (tr ++ [(⟨url, Dict.set sp "band" b, []⟩ : Request)]) hpre' hfail'
    refine ⟨e, ?_, he⟩
    simp only [List.cons_append, subsetLoop, hfetch, List.append_eq]
    rw [heq, Dict.set_set]
    simp [Dict.set_set, List.append_assoc]

theorem subsetLoop_trace_mem (w : World) (url : String) (bs : List String) :
    ∀ (sp : List (String × String)) (results : List (String × Json))
      (tr : List Request),
      ∀ req ∈ (subsetLoop w url bs sp results tr).2.2,
        req ∈ tr ∨ (req.url = url ∧ req.headers = [] ∧
          ∀ a ∈ Dict.keys req.params, a = "band" ∨ a ∈ Dict.keys sp) := by
  induction bs with
  | nil => intro sp results tr req hreq; exact Or.inl hreq
  | cons b rest ih =>
    intro sp results tr req hreq
    simp only [subsetLoop] at hreq
    cases hfetch : fetch_json w ⟨url, Dict.set sp "band" b, []⟩ with
    | error e =>
      rw [hfetch] at hreq
      simp only [List.mem_append, List.mem_singleton] at hreq
      rcases hreq with hreq | rfl
      · exact Or.inl hreq
      · exact Or.inr ⟨rfl, rfl, fun a ha => (Dict.mem_keys_set sp "band" a b).mp ha⟩
    | ok j =>
      rw [hfetch] at hreq
      rcases ih (Dict.set sp "band" b) (Dict.set results b j)
          (tr ++ [⟨url, Dict.set sp "band" b, []⟩]) req hreq with hmem | ⟨hu, hh, hk⟩
      · simp only [List.mem_append, List.mem_singleton] at hmem
        rcases hmem with hmem | rfl
        · exact Or.inl hmem
        · exact Or.inr ⟨rfl, rfl, fun a ha => (Dict.mem_keys_set sp "band" a b).mp ha⟩
      · refine Or.inr ⟨hu, hh, fun a ha => ?_⟩
        rcases hk a ha with rfl | hmem
        · exact Or.inl rfl
        · exact (Dict.mem_keys_set sp "band" a b).mp hmem

theorem subsetLoop_params_keys (w : World) (url : String) (bs : List String) :
    ∀ (sp : List (String × String)) (results : List (String × Json))
      (tr : List Request),
      ∀ a ∈ Dict.keys (subsetLoop w url bs sp results tr).2.1,
        a = "band" ∨ a ∈ Dict.keys sp := by
  induction bs with
  | nil => intro sp results tr a ha; exact Or.inr ha
  | cons b rest ih =>
    intro sp results tr a ha
    simp only [subsetLoop] at ha
    cases hfetch : fetch_json w ⟨url, Dict.set sp "band" b, []⟩ with
    | error e =>
      rw [hfetch] at ha
      exact (Dict.mem_keys_set sp "band" a b).mp ha
    | ok j =>
      rw [hfetch] at ha
      rcases ih (Dict.set sp "band" b) (Dict.set results b j)
          (tr ++ [⟨url, Dict.set sp "band" b, []⟩]) a ha with rfl | hmem
      · exact Or.inl rfl
      · exact (Dict.mem_keys_set sp "band" a b).mp hmem

theorem foldl_set_eq_append (jv : String → Json) (bs : List String) :
    ∀ (acc : List (String × Json)), (∀ b ∈ bs, b ∉ Dict.keys acc) → bs.Nodup →
      bs.foldl (fun acc b => Dict.set acc b (jv b)) acc =
        acc ++ bs.map (fun b => (b, jv b)) := by
  induction bs with
  | nil => intro acc _ _; simp
  | cons b rest ih =>
    intro acc hdisj hnd
    simp only [List.foldl_cons, List.map_cons]
    rw [Dict.set_eq_append (hdisj b (List.mem_cons_self b rest)) (jv b)]
    have hkeys : Dict.keys (acc ++ [(b, jv b)]) = Dict.keys acc ++ [b] := by
      simp [Dict.keys]
    have hdisj' : ∀ b' ∈ rest, b' ∉ Dict.keys (acc ++ [(b, jv b)]) := by
      intro b' hb'
      have h1 : b' ∉ Dict.keys acc := hdisj b' (List.mem_cons_of_mem b hb')
      have h2 : b' ≠ b := by
        intro hbb
        subst hbb
        exact (List.nodup_cons.mp hnd).1 hb'
      rw [hkeys]
      simp [List.mem_append, h1, h2]
    rw [ih (acc ++ [(b, jv b)]) hdisj' (List.nodup_cons.mp hnd).2]
    simp

theorem get_data_invalid (w : World) (sp : List (String × String))
    (h : param_diff sp ≠ []) :
    get_data w sp = ⟨.error (.invalidParams (param_diff sp)), [], sp⟩ := by
  simp [get_data, h]

theorem get_data_missing_product (w : World) (sp : List (String × String))
    (h : param_diff sp = []) (hp : Dict.pop sp "product" = none) :
    get_data w sp = ⟨.error (.keyError "product"), [], sp⟩ := by
  simp [get_data, h, hp]

theorem get_data_missing_band (w : World) (sp sp' : List (String × String))
    (p : String) (h : param_diff sp = [])
    (hp : Dict.pop sp "product" = some (p, sp'))
    (hb : Dict.get? sp' "band" = none) :
    get_data w sp = ⟨.error (.keyError "band"), [], sp'⟩ := by
  simp [get_data, h, hp, hb]

theorem get_data_single_band (w : World) (sp sp' : List (String × String))
    (p bv : String) (h : param_diff sp = [])
    (hp : Dict.pop sp "product" = some (p, sp'))
    (hb : Dict.get? sp' "band" = some bv) (hbv : bv ≠ "all") :
    get_data w sp =
      match fetch_json w ⟨modis_rest_api ++ p ++ "/subset?", sp', []⟩ with
      | .error e => ⟨.error e, [⟨modis_rest_api ++ p ++ "/subset?", sp', []⟩], sp'⟩
      | .ok j =>
          ⟨.ok (.single j), [⟨modis_rest_api ++ p ++ "/subset?", sp', []⟩], sp'⟩ := by
  simp [get_data, h, hp, hb, hbv]

theorem get_data_all_bands (w : World) (sp sp' : List (String × String))
    (p : String) (h : param_diff sp = [])
    (hp : Dict.pop sp "product" = some (p, sp'))
    (hb : Dict.get? sp' "band" = some "all") :
    get_data w sp =
      match fetch_json w ⟨modis_rest_api ++ p ++ "/bands", [], json_header⟩ with
      | .error e =>
          ⟨.error e, [⟨modis_rest_api ++ p ++ "/bands", [], json_header⟩], sp'⟩
      | .ok bjson =>
        match extract_band_names bjson with
        | .error e =>
            ⟨.error e, [⟨modis_rest_api ++ p ++ "/bands", [], json_header⟩], sp'⟩
        | .ok bands =>
            ⟨Except.map GDResult.multi
              (subsetLoop w (modis_rest_api ++ p ++ "/subset?") bands sp' [] []).1,
             ⟨modis_rest_api ++ p ++ "/bands", [], json_header⟩ ::
               (subsetLoop w (modis_rest_api ++ p ++ "/subset?") bands sp' [] []).2.2,
             (subsetLoop w (modis_rest_api ++ p ++ "/subset?") bands sp' [] []).2.1⟩ := by
  cases hgb : fetch_json w ⟨modis_rest_api ++ p ++ "/bands", [], json_header⟩ with
  | error e => simp [get_data, h, hp, hb, get_bands, hgb]
  | ok bjson =>
    cases hex : extract_band_names bjson with
    | error e => simp [get_data, h, hp, hb, get_bands, hgb, hex]
    | ok bands => simp [get_data, h, hp, hb, get_bands, hgb, hex]

theorem param_diff_eq_nil {sp : List (String × String)}
    (h : ∀ k ∈ Dict.keys sp, k ∈ Dict.keys default_args) : param_diff sp = [] := by
  apply List.filter_eq_nil_iff.mpr
  intro a ha
  simp [h a ha]

theorem param_diff_mem (sp : List (String × String)) (k : String) :
    k ∈ param_diff sp ↔ (k ∈ Dict.keys sp ∧ k ∉ Dict.keys default_args) := by
  simp [param_diff, List.mem_filter]

theorem fetch_json_error_cases (w : World) (req : Request) (e : Err)
    (h : fetch_json w req = .error e) : e = .transport ∨ e = .decodeError := by
  cases hr : w.respond req with
  | none =>
    simp only [fetch_json, hr] at h
    cases h
    exact Or.inl rfl
  | some body =>
    cases hd : w.decode body with
    | none =>
      simp only [fetch_json, hr, hd] at h
      cases h
      exact Or.inr rfl
    | some j =>
      simp [fetch_json, hr, hd] at h

theorem extract_names_error (items : List Json) :
    ∀ e : Err, extract_names items = .error e → e = .typeError := by
  induction items with
  | nil => intro e h; simp [extract_names] at h
  | cons item rest ih =>
    intro e h
    simp only [extract_names] at h
    cases hl : Json.lookup item "band" with
    | none =>
      rw [hl] at h
      cases h
      rfl
    | some j =>
      rw [hl] at h
      cases j with
      | str s =>
        cases hr : extract_names rest with
        | ok names =>
          rw [hr] at h
          exact absurd h (by simp)
        | error e' =>
          rw [hr] at h
          cases h
          exact ih _ hr
      | null => cases h; rfl
      | bool b => cases h; rfl
      | num n => cases h; rfl
      | arr xs => cases h; rfl
      | obj fs => cases h; rfl

theorem extract_band_names_error (bjson : Json) (e : Err)
    (h : extract_band_names bjson = .error e) :
    e = .typeError ∨ e = .keyError "bands" := by
  unfold extract_band_names at h
  cases hl : Json.lookup bjson "bands" with
  | none =>
    rw [hl] at h
    cases h
    exact Or.inr rfl
  | some j =>
    rw [hl] at h
    cases j with
    | arr items => exact Or.inl (extract_names_error items e h)
    | null => cases h; exact Or.inl rfl
    | bool b => cases h; exact Or.inl rfl
    | num n => cases h; exact Or.inl rfl
    | str s => cases h; exact Or.inl rfl
    | obj fs => cases h; exact Or.inl rfl

theorem subsetLoop_error_cases (w : World) (url : String) (bs : List String) :
    ∀ (sp : List (String × String)) (results : List (String × Json))
      (tr : List Request) (e : Err),
      (subsetLoop w url bs sp results tr).1 = .error e →
      e = .transport ∨ e = .decodeError := by
  induction bs with
  | nil => intro sp results tr e h; simp [subsetLoop] at h
  | cons b rest ih =>
    intro sp results tr e h
    simp only [subsetLoop] at h
    cases hf : fetch_json w ⟨url, Dict.set sp "band" b, []⟩ with
    | error e' =>
      rw [hf] at h
      cases h
      exact fetch_json_error_cases w _ _ hf
    | ok j =>
      rw [hf] at h
      exact ih _ _ _ e h

theorem bands_url_ne_subset_url (p : String) :
    modis_rest_api ++ p ++ "/bands" ≠ modis_rest_api ++ p ++ "/subset?" := by
  intro h
  have hlen := congrArg String.length h
  simp only [String.length_append] at hlen
  have h1 : ("/bands" : String).length = 6 := rfl
  have h2 : ("/subset?" : String).length = 8 := rfl
  omega

theorem get_data_shape (w : World) (sp sp' : List (String × String)) (p : String)
    (hdiff : param_diff sp = []) (hp : Dict.pop sp "product" = some (p, sp')) :
    (∀ req ∈ (get_data w sp).trace,
      (req.url = modis_rest_api ++ p ++ "/subset?" ∧ req.headers = [] ∧
        ∀ a ∈ Dict.keys req.params, a = "band" ∨ a ∈ Dict.keys sp') ∨
      req = ⟨modis_rest_api ++ p ++ "/bands", [], json_header⟩) ∧
    (∀ a ∈ Dict.keys (get_data w sp).params, a = "band" ∨ a ∈ Dict.keys sp') := by
  cases hb : Dict.get? sp' "band" with
  | none =>
    rw [get_data_missing_band w sp sp' p hdiff hp hb]
    exact ⟨fun req hreq => absurd hreq (by simp), fun a ha => Or.inr ha⟩
  | some bv =>
    by_cases hbv : bv = "all"
    · subst hbv
      cases hgb : fetch_json w ⟨modis_rest_api ++ p ++ "/bands", [], json_header⟩ with
      | error e =>
        rw [get_data_all_bands w sp sp' p hdiff hp hb]
        simp only [hgb]
        refine ⟨fun req hreq => ?_, fun a ha => Or.inr ha⟩
        have hr : req = (⟨modis_rest_api ++ p ++ "/bands", [], json_header⟩ : Request) := by
          simpa using hreq
        exact Or.inr hr
      | ok bjson =>
        cases hex : extract_band_names bjson with
        | error e =>
          rw [get_data_all_bands w sp sp' p hdiff hp hb]
          simp only [hgb, hex]
          refine ⟨fun req hreq => ?_, fun a ha => Or.inr ha⟩
          have hr : req = (⟨modis_rest_api ++ p ++ "/bands", [], json_header⟩ : Request) := by
            simpa using hreq
          exact Or.inr hr
        | ok bands =>
          rw [get_data_all_bands w sp sp' p hdiff hp hb]
          simp only [hgb, hex]
          constructor
          · intro req hreq
            simp only [List.mem_cons] at hreq
            rcases hreq with rfl | htr
            · exact Or.inr rfl
            · have hmem := subsetLoop_trace_mem w (modis_rest_api ++ p ++ "/subset?")
                bands sp' [] [] req htr
              rcases hmem with hmem | hprops
              · exact absurd hmem (by simp)
              · exact Or.inl hprops
          · intro a ha
            exact subsetLoop_params_keys w (modis_rest_api ++ p ++ "/subset?")
              bands sp' [] [] a ha
    · rw [get_data_single_band w sp sp' p bv hdiff hp hb hbv]
      cases hf : fetch_json w ⟨modis_rest_api ++ p ++ "/subset?", sp', []⟩ with
      | error e =>
        refine ⟨fun req hreq => ?_, fun a ha => Or.inr ha⟩
        have hr : req = (⟨modis_rest_api ++ p ++ "/subset?", sp', []⟩ : Request) := by
          simpa using hreq
        subst hr
        exact Or.inl ⟨rfl, rfl, fun a ha => Or.inr ha⟩
      | ok j =>
        refine ⟨fun req hreq => ?_, fun a ha => Or.inr ha⟩
        have hr : req = (⟨modis_rest_api ++ p ++ "/subset?", sp', []⟩ : Request) := by
          simpa using hreq
        subst hr
        exact Or.inl ⟨rfl, rfl, fun a ha => Or.inr ha⟩

theorem get_data_all_ok (w : World) (sp sp' : List (String × String)) (p : String)
    (bbody : String) (bjson : Json) (bs : List String)
    (body : String → String) (jv : String → Json)
    (hvalid : ∀ k ∈ Dict.keys sp, k ∈ Dict.keys default_args)
    (hp : Dict.pop sp "product" = some (p, sp'))
    (hb : Dict.get? sp' "band" = some "all")
    (hbr : w.respond ⟨modis_rest_api ++ p ++ "/bands", [], json_header⟩ = some bbody)
    (hbd : w.decode bbody = some bjson)
    (hex : extract_band_names bjson = .ok bs)
    (hnd : bs.Nodup)
    (hresp : ∀ b ∈ bs,
      w.respond ⟨modis_rest_api ++ p ++ "/subset?", Dict.set sp' "band" b, []⟩ =
        some (body b) ∧ w.decode (body b) = some (jv b)) :
    get_data w sp =
      ⟨.ok (.multi (bs.map (fun b => (b, jv b)))),
       ⟨modis_rest_api ++ p ++ "/bands", [], json_header⟩ ::
         bs.map (fun b =>
           ⟨modis_rest_api ++ p ++ "/subset?", Dict.set sp' "band" b, []⟩),
       (match bs.getLast? with
        | none => sp'
        | some l => Dict.set sp' "band" l)⟩ := by
  have hdiff := param_diff_eq_nil hvalid
  have hfb : fetch_json w ⟨modis_rest_api ++ p ++ "/bands", [], json_header⟩ =
      .ok bjson := by
    simp [fetch_json, hbr, hbd]
  have hloop := subsetLoop_ok w (modis_rest_api ++ p ++ "/subset?") body jv bs
    sp' [] [] hresp
  have hfold := foldl_set_eq_append jv bs []
    (fun b _ => by simp [Dict.keys]) hnd
  have hout := get_data_all_bands w sp sp' p hdiff hp hb
  simp only [hfb, hex] at hout
  rw [hloop] at hout
  rw [hfold] at hout
  simpa [Except.map] using hout

theorem get_data_all_fail (w : World) (sp sp' : List (String × String)) (p : String)
    (bbody : String) (bjson : Json) (pre post : List String) (bfail : String)
    (body : String → String) (jv : String → Json)
    (hvalid : ∀ k ∈ Dict.keys sp, k ∈ Dict.keys default_args)
    (hp : Dict.pop sp "product" = some (p, sp'))
    (hb : Dict.get? sp' "band" = some "all")
    (hbr : w.respond ⟨modis_rest_api ++ p ++ "/bands", [], json_header⟩ = some bbody)
    (hbd : w.decode bbody = some bjson)
    (hex : extract_band_names bjson = .ok (pre ++ bfail :: post))
    (hresp : ∀ b ∈ pre,
      w.respond ⟨modis_rest_api ++ p ++ "/subset?", Dict.set sp' "band" b, []⟩ =
        some (body b) ∧ w.decode (body b) = some (jv b))
    (hfail :
      w.respond ⟨modis_rest_api ++ p ++ "/subset?", Dict.set sp' "band" bfail, []⟩ =
        none ∨
      ∃ s, w.respond
          ⟨modis_rest_api ++ p ++ "/subset?", Dict.set sp' "band" bfail, []⟩ =
        some s ∧ w.decode s = none) :
    ∃ e, get_data w sp =
      ⟨.error e,
       ⟨modis_rest_api ++ p ++ "/bands", [], json_header⟩ ::
         (pre ++ [bfail]).map (fun b =>
           ⟨modis_rest_api ++ p ++ "/subset?", Dict.set sp' "band" b, []⟩),
       Dict.set sp' "band" bfail⟩ ∧
      (e = Err.transport ∨ e = Err.decodeError) := by
  have hdiff := param_diff_eq_nil hvalid
  have hfb : fetch_json w ⟨modis_rest_api ++ p ++ "/bands", [], json_header⟩ =
      .ok bjson := by
    simp [fetch_json, hbr, hbd]
  obtain ⟨e, hloop, he⟩ := subsetLoop_fail w (modis_rest_api ++ p ++ "/subset?")
    body jv bfail post pre sp' [] [] hresp hfail
  have hout := get_data_all_bands w sp sp' p hdiff hp hb
  simp only [hfb, hex] at hout
  rw [hloop] at hout
  refine ⟨e, ?_, he⟩
  simpa [Except.map] using hout

/-- C2: for every parameter mapping containing at least one key outside the
recognized set (the keys of default_args), get_data raises ValueError
(invalidParams) carrying exactly the offending keys, and issues zero
requests.  The offending keys are carried as the sub-list of supplied keys
outside the recognized set (the order-free content of the Python set
difference), characterized exactly by the final conjunct. -/
theorem claim_C2 (w : World) (sp : List (String × String))
    (h : ∃ k ∈ Dict.keys sp, k ∉ Dict.keys default_args) :
    (get_data w sp).result = .error (.invalidParams (param_diff sp)) ∧
    (get_data w sp).trace = [] ∧
    ∀ k, k ∈ param_diff sp ↔ (k ∈ Dict.keys sp ∧ k ∉ Dict.keys default_args) := by
  obtain ⟨k, hk, hnk⟩ := h
  have hmem : k ∈ param_diff sp := (param_diff_mem sp k).mpr ⟨hk, hnk⟩
  have hne : param_diff sp ≠ [] := List.ne_nil_of_mem hmem
  rw [get_data_invalid w sp hne]
  exact ⟨rfl, rfl, fun k' => param_diff_mem sp k'⟩

/-- Witness for C2 at the concrete mapping spBad, whose key bandz is not
recognized. -/
theorem claim_C2_witness :
    (get_data wAll spBad).result = .error (.invalidParams ["bandz"]) ∧
    (get_data wAll spBad).trace = [] := by
  have h := claim_C2 wAll spBad ⟨"bandz", by decide, by decide⟩
  exact ⟨h.1, h.2.1⟩

/-- C6: a mapping whose keys are all recognized but with no product key does
not raise invalidParams; it fails with a KeyError on popping product, with
no request issued. -/
theorem claim_C6 (w : World) (sp : List (String × String))
    (hvalid : ∀ k ∈ Dict.keys sp, k ∈ Dict.keys default_args)
    (hnop : "product" ∉ Dict.keys sp) :
    get_data w sp = ⟨.error (.keyError "product"), [], sp⟩ ∧
    ∀ ks, (get_data w sp).result ≠ .error (.invalidParams ks) := by
  have hdiff : param_diff sp = [] := param_diff_eq_nil hvalid
  have hpop : Dict.pop sp "product" = none := (Dict.pop_eq_none sp "product").mpr hnop
  have hout := get_data_missing_product w sp hdiff hpop
  refine ⟨hout, fun ks => ?_⟩
  rw [hout]
  simp

/-- Witness for C6 at the concrete mapping spNoProduct. -/
theorem claim_C6_witness :
    get_data wAll spNoProduct =
      ⟨.error (.keyError "product"), [], spNoProduct⟩ ∧
    (get_data wAll spNoProduct).result ≠ .error (.invalidParams []) := by
  have h := claim_C6 wAll spNoProduct (by decide) (by decide)
  exact ⟨h.1, h.2 []⟩

/-- C7: get_dates always issues exactly one GET whose URL carries the query
string with the latitude parameter serialized before the longitude
parameter. -/
theorem claim_C7 (w : World) (product longitude latitude : String) :
    (get_dates w product longitude latitude).2 =
      [⟨modis_rest_api ++ product ++ "/dates?" ++ ("latitude=" ++ latitude ++ "&")
        ++ ("longitude=" ++ longitude), [], json_header⟩] := rfl

/-- C5: for a valid mapping whose band is not all, get_data issues exactly
one GET to product/subset with all remaining parameters (band included) as
its query parameters, and returns the parsed JSON body directly. -/
theorem claim_C5 (w : World) (sp sp' : List (String × String)) (p bv : String)
    (rbody : String) (j : Json)
    (hvalid : ∀ k ∈ Dict.keys sp, k ∈ Dict.keys default_args)
    (hp : Dict.pop sp "product" = some (p, sp'))
    (hb : Dict.get? sp' "band" = some bv) (hbv : bv ≠ "all")
    (hresp : w.respond ⟨modis_rest_api ++ p ++ "/subset?", sp', []⟩ = some rbody)
    (hdec : w.decode rbody = some j) :
    get_data w sp =
      ⟨.ok (.single j), [⟨modis_rest_api ++ p ++ "/subset?", sp', []⟩], sp'⟩ := by
  have hdiff := param_diff_eq_nil hvalid
  have hf : fetch_json w ⟨modis_rest_api ++ p ++ "/subset?", sp', []⟩ = .ok j := by
    simp [fetch_json, hresp, hdec]
  rw [get_data_single_band w sp sp' p bv hdiff hp hb hbv, hf]

/-- Witness for C5 at the concrete mapping spSingle in the concrete
environment wAll: the single subset request is answered by RS, which
decodes to the string document rs, returned unchanged. -/
theorem claim_C5_witness :
    get_data wAll spSingle =
      ⟨.ok (.single (.str "rs")),
       [⟨modis_rest_api ++ "MYD09A1" ++ "/subset?",
         [("latitude", "39.56499"), ("longitude", "-121.55527"),
          ("band", "sur_refl_b06"), ("startDate", "A2003101"),
          ("endDate", "A2003111"), ("kmAboveBelow", "1"), ("kmLeftRight", "1")],
         []⟩],
       [("latitude", "39.56499"), ("longitude", "-121.55527"),
        ("band", "sur_refl_b06"), ("startDate", "A2003101"),
        ("endDate", "A2003111"), ("kmAboveBelow", "1"), ("kmLeftRight", "1")]⟩ :=
  claim_C5 wAll spSingle
    [("latitude", "39.56499"), ("longitude", "-121.55527"),
     ("band", "sur_refl_b06"), ("startDate", "A2003101"),
     ("endDate", "A2003111"), ("kmAboveBelow", "1"), ("kmLeftRight", "1")]
    "MYD09A1" "sur_refl_b06" "RS" (.str "rs")
    (by decide) (by decide) (by decide) (by decide) rfl rfl

/-- C10: local validation checks nothing beyond the key-set inclusion and
the uses of product and band: any mapping with recognized keys containing
product and band never raises invalidParams, even when every coordinate and
date key is absent, and at least one request is issued. -/
theorem claim_C10 (w : World) (sp : List (String × String))
    (hvalid : ∀ k ∈ Dict.keys sp, k ∈ Dict.keys default_args)
    (hprod : "product" ∈ Dict.keys sp) (hband : "band" ∈ Dict.keys sp) :
    (∀ ks, (get_data w sp).result ≠ .error (.invalidParams ks)) ∧
    (get_data w sp).trace ≠ [] := by
  have hdiff := param_diff_eq_nil hvalid
  obtain ⟨p, sp', hp⟩ := Dict.pop_eq_some_of_mem hprod
  have hband' : "band" ∈ Dict.keys sp' :=
    (Dict.mem_keys_pop_iff (by decide) hp).mp hband
  obtain ⟨bv, hb⟩ := Dict.get?_eq_some_of_mem hband'
  by_cases hbv : bv = "all"
  · subst hbv
    cases hgb : fetch_json w ⟨modis_rest_api ++ p ++ "/bands", [], json_header⟩ with
    | error e =>
      rw [get_data_all_bands w sp sp' p hdiff hp hb]
      simp only [hgb]
      refine ⟨fun ks hks => ?_, by simp⟩
      rcases fetch_json_error_cases w _ e hgb with rfl | rfl <;> simp at hks
    | ok bjson =>
      cases hex : extract_band_names bjson with
      | error e =>
        rw [get_data_all_bands w sp sp' p hdiff hp hb]
        simp only [hgb, hex]
        refine ⟨fun ks hks => ?_, by simp⟩
        rcases extract_band_names_error bjson e hex with rfl | rfl <;> simp at hks
      | ok bands =>
        rw [get_data_all_bands w sp sp' p hdiff hp hb]
        simp only [hgb, hex]
        refine ⟨fun ks hks => ?_, by simp⟩
        cases hres : (subsetLoop w (modis_rest_api ++ p ++ "/subset?")
            bands sp' [] []).1 with
        | error e =>
          rw [hres] at hks
          rcases subsetLoop_error_cases w _ bands sp' [] [] e hres with rfl | rfl <;>
            simp [Except.map] at hks
        | ok m =>
          rw [hres] at hks
          simp [Except.map] at hks
  · rw [get_data_single_band w sp sp' p bv hdiff hp hb hbv]
    cases hf : fetch_json w ⟨modis_rest_api ++ p ++ "/subset?", sp', []⟩ with
    | error e =>
      refine ⟨fun ks hks => ?_, by simp⟩
      rcases fetch_json_error_cases w _ e hf with rfl | rfl <;> simp at hks
    | ok j =>
      exact ⟨fun ks hks => by simp at hks, by simp⟩

/-- Witness for C10 at the concrete mapping spMinimal, which holds only
product and band. -/
theorem claim_C10_witness :
    (get_data wAll spMinimal).result ≠ .error (.invalidParams []) ∧
    (get_data wAll spMinimal).trace ≠ [] := by
  have h := claim_C10 wAll spMinimal (by decide) (by decide) (by decide)
  exact ⟨h.1 [], h.2⟩

/-- C4: for every mapping that passes validation and holds product, every
GET issued by get_data has the product value embedded in its URL (either
the subset URL or the bands URL, both of which are formed by appending to
the product) and never carries a product query parameter. -/
theorem claim_C4 (w : World) (sp sp' : List (String × String)) (p : String)
    (hvalid : ∀ k ∈ Dict.keys sp, k ∈ Dict.keys default_args)
    (hnd : (Dict.keys sp).Nodup)
    (hp : Dict.pop sp "product" = some (p, sp')) :
    ∀ req ∈ (get_data w sp).trace,
      (req.url = modis_rest_api ++ p ++ "/subset?" ∨
        req.url = modis_rest_api ++ p ++ "/bands") ∧
      "product" ∉ Dict.keys req.params := by
  have hdiff := param_diff_eq_nil hvalid
  have hnp : "product" ∉ Dict.keys sp' := Dict.not_mem_keys_pop hnd hp
  intro req hreq
  rcases (get_data_shape w sp sp' p hdiff hp).1 req hreq with ⟨hu, _, hk⟩ | rfl
  · refine ⟨Or.inl hu, fun hmem => ?_⟩
    rcases hk "product" hmem with hband | hmem'
    · exact absurd hband (by decide)
    · exact hnp hmem'
  · exact ⟨Or.inr rfl, by simp [Dict.keys]⟩

/-- Witness for C4 at the concrete mapping spSingle and the single request
it issues. -/
theorem claim_C4_witness :
    (modis_rest_api ++ "MYD09A1" ++ "/subset?" =
        modis_rest_api ++ "MYD09A1" ++ "/subset?" ∨
      modis_rest_api ++ "MYD09A1" ++ "/subset?" =
        modis_rest_api ++ "MYD09A1" ++ "/bands") ∧
    "product" ∉ Dict.keys
      [("latitude", "39.56499"), ("longitude", "-121.55527"),
       ("band", "sur_refl_b06"), ("startDate", "A2003101"),
       ("endDate", "A2003111"), ("kmAboveBelow", "1"), ("kmLeftRight", "1")] :=
  claim_C4 wAll spSingle
    [("latitude", "39.56499"), ("longitude", "-121.55527"),
     ("band", "sur_refl_b06"), ("startDate", "A2003101"),
     ("endDate", "A2003111"), ("kmAboveBelow", "1"), ("kmLeftRight", "1")]
    "MYD09A1" (by decide) (by decide) (by decide)
    ⟨modis_rest_api ++ "MYD09A1" ++ "/subset?",
     [("latitude", "39.56499"), ("longitude", "-121.55527"),
      ("band", "sur_refl_b06"), ("startDate", "A2003101"),
      ("endDate", "A2003111"), ("kmAboveBelow", "1"), ("kmLeftRight", "1")],
     []⟩ (by decide)

/-- C8: every request issued by get_products, get_bands and get_dates
carries the JSON Accept header, while every request get_data issues to the
subset URL carries no headers. -/
theorem claim_C8 (w : World) (sp sp' : List (String × String))
    (p prod lon lat : String)
    (hvalid : ∀ k ∈ Dict.keys sp, k ∈ Dict.keys default_args)
    (hp : Dict.pop sp "product" = some (p, sp')) :
    (∀ req ∈ (get_products w).2, req.headers = json_header) ∧
    (∀ req ∈ (get_bands w prod).2, req.headers = json_header) ∧
    (∀ req ∈ (get_dates w prod lon lat).2, req.headers = json_header) ∧
    (∀ req ∈ (get_data w sp).trace,
      req.url = modis_rest_api ++ p ++ "/subset?" → req.headers = []) := by
  refine ⟨?_, ?_, ?_, ?_⟩
  · intro req hreq
    have hr : req = (⟨modis_rest_api ++ "products", [], json_header⟩ : Request) := by
      simpa [get_products] using hreq
    subst hr
    rfl
  · intro req hreq
    have hr : req =
        (⟨modis_rest_api ++ prod ++ "/bands", [], json_header⟩ : Request) := by
      simpa [get_bands] using hreq
    subst hr
    rfl
  · intro req hreq
    have hr : req =
        (⟨modis_rest_api ++ prod ++ "/dates?" ++ ("latitude=" ++ lat ++ "&")
          ++ ("longitude=" ++ lon), [], json_header⟩ : Request) := by
      simpa [get_dates] using hreq
    subst hr
    rfl
  · intro req hreq hurl
    rcases (get_data_shape w sp sp' p (param_diff_eq_nil hvalid) hp).1 req hreq
      with ⟨-, hh, -⟩ | rfl
    · exact hh
    · exact absurd hurl (bands_url_ne_subset_url p)

/-- Witness for C8 at the concrete environment wAll: the products request
and the concrete subset request of spSingle. -/
theorem claim_C8_witness :
    (Request.mk (modis_rest_api ++ "products") [] json_header).headers =
      json_header ∧
    (Request.mk (modis_rest_api ++ "MYD09A1" ++ "/subset?")
      [("latitude", "39.56499"), ("longitude", "-121.55527"),
       ("band", "sur_refl_b06"), ("startDate", "A2003101"),
       ("endDate", "A2003111"), ("kmAboveBelow", "1"), ("kmLeftRight", "1")]
      []).headers = [] := by
  have h := claim_C8 wAll spSingle
    [("latitude", "39.56499"), ("longitude", "-121.55527"),
     ("band", "sur_refl_b06"), ("startDate", "A2003101"),
     ("endDate", "A2003111"), ("kmAboveBelow", "1"), ("kmLeftRight", "1")]
    "MYD09A1" "MYD09A1" "-121.55527" "39.56499" (by decide) (by decide)
  exact ⟨h.1 _ (by decide), h.2.2.2 _ (by decide) rfl⟩

/-- C1: in all-bands mode get_data calls get_bands exactly once (the trace
holds exactly one request to the bands URL, at the front), then issues one
subset GET per extracted band name, in catalog order, with the band query
parameter set to that name, and the returned mapping holds the decoded
body of each response keyed by its band name, one entry per listed band
(band names are assumed pairwise distinct, as the service lists them). -/
theorem claim_C1 (w : World) (sp sp' : List (String × String)) (p : String)
    (bbody : String) (bjson : Json) (bs : List String)
    (body : String → String) (jv : String → Json)
    (hvalid : ∀ k ∈ Dict.keys sp, k ∈ Dict.keys default_args)
    (hp : Dict.pop sp "product" = some (p, sp'))
    (hb : Dict.get? sp' "band" = some "all")
    (hbr : w.respond ⟨modis_rest_api ++ p ++ "/bands", [], json_header⟩ = some bbody)
    (hbd : w.decode bbody = some bjson)
    (hex : extract_band_names bjson = .ok bs)
    (hnd : bs.Nodup)
    (hresp : ∀ b ∈ bs,
      w.respond ⟨modis_rest_api ++ p ++ "/subset?", Dict.set sp' "band" b, []⟩ =
        some (body b) ∧ w.decode (body b) = some (jv b)) :
    (get_data w sp).result = .ok (.multi (bs.map (fun b => (b, jv b)))) ∧
    (get_data w sp).trace =
      ⟨modis_rest_api ++ p ++ "/bands", [], json_header⟩ ::
        bs.map (fun b =>
          ⟨modis_rest_api ++ p ++ "/subset?", Dict.set sp' "band" b, []⟩) ∧
    ((get_data w sp).trace.filter
      (fun r => r.url == modis_rest_api ++ p ++ "/bands")).length = 1 := by
  have hout := get_data_all_ok w sp sp' p bbody bjson bs body jv hvalid hp hb
    hbr hbd hex hnd hresp
  rw [hout]
  refine ⟨rfl, rfl, ?_⟩
  have h2 : (bs.map (fun b =>
      (⟨modis_rest_api ++ p ++ "/subset?", Dict.set sp' "band" b, []⟩ : Request))).filter
        (fun r => r.url == modis_rest_api ++ p ++ "/bands") = [] := by
    apply List.filter_eq_nil_iff.mpr
    intro r hr
    obtain ⟨b, -, rfl⟩ := List.mem_map.mp hr
    simp only [beq_iff_eq]
    exact fun hc => bands_url_ne_subset_url p hc.symm
  simp [List.filter_cons, h2]

/-- Witness for C1 at the concrete mapping spAll in the environment wAll:
bands b1 and b2 are listed, both subset requests succeed, and the result
maps b1 and b2 to their decoded bodies; the bands request appears exactly
once in the trace. -/
theorem claim_C1_witness :
    (get_data wAll spAll).result =
      .ok (.multi [("b1", .str "r1"), ("b2", .str "r2")]) ∧
    ((get_data wAll spAll).trace.filter
      (fun r => r.url == modis_rest_api ++ "MYD09A1" ++ "/bands")).length = 1 := by
  have h := claim_C1 wAll spAll
    [("latitude", "39.56499"), ("longitude", "-121.55527"), ("band", "all"),
     ("startDate", "A2003101"), ("endDate", "A2003111"),
     ("kmAboveBelow", "1"), ("kmLeftRight", "1")]
    "MYD09A1" "BANDS" bandsJson ["b1", "b2"]
    (fun b => if b = "b1" then "R1" else "R2")
    (fun b => if b = "b1" then .str "r1" else .str "r2")
    (by decide) (by decide) (by decide) rfl rfl rfl (by decide)
    (by intro b hb; fin_cases hb <;> exact ⟨rfl, rfl⟩)
  exact ⟨h.1, h.2.2⟩

/-- C3: in all-bands mode, when the request or the decode for one band
fails after some bands succeeded, get_data fails as a whole: the result is
the propagated transport or decode error, and the trace stops at the
failing band, so no request is issued for any later band and no partial
mapping is returned. -/
theorem claim_C3 (w : World) (sp sp' : List (String × String)) (p : String)
    (bbody : String) (bjson : Json) (pre post : List String) (bfail : String)
    (body : String → String) (jv : String → Json)
    (hvalid : ∀ k ∈ Dict.keys sp, k ∈ Dict.keys default_args)
    (hp : Dict.pop sp "product" = some (p, sp'))
    (hb : Dict.get? sp' "band" = some "all")
    (hbr : w.respond ⟨modis_rest_api ++ p ++ "/bands", [], json_header⟩ = some bbody)
    (hbd : w.decode bbody = some bjson)
    (hex : extract_band_names bjson = .ok (pre ++ bfail :: post))
    (hresp : ∀ b ∈ pre,
      w.respond ⟨modis_rest_api ++ p ++ "/subset?", Dict.set sp' "band" b, []⟩ =
        some (body b) ∧ w.decode (body b) = some (jv b))
    (hfail :
      w.respond ⟨modis_rest_api ++ p ++ "/subset?", Dict.set sp' "band" bfail, []⟩ =
        none ∨
      ∃ s, w.respond
          ⟨modis_rest_api ++ p ++ "/subset?", Dict.set sp' "band" bfail, []⟩ =
        some s ∧ w.decode s = none) :
    ((get_data w sp).result = .error .transport ∨
      (get_data w sp).result = .error .decodeError) ∧
    (get_data w sp).trace =
      ⟨modis_rest_api ++ p ++ "/bands", [], json_header⟩ ::
        (pre ++ [bfail]).map (fun b =>
          ⟨modis_rest_api ++ p ++ "/subset?", Dict.set sp' "band" b, []⟩) := by
  obtain ⟨e, hout, he⟩ := get_data_all_fail w sp sp' p bbody bjson pre post bfail
    body jv hvalid hp hb hbr hbd hex hresp hfail
  rw [hout]
  rcases he with rfl | rfl
  · exact ⟨Or.inl rfl, rfl⟩
  · exact ⟨Or.inr rfl, rfl⟩

/-- Witness for C3 at the concrete mapping spAll in the environment wFail:
band b1 succeeds, the request for b2 fails at the transport layer, the
whole call fails and the trace holds the bands request and the subset
requests for b1 and b2 only. -/
theorem claim_C3_witness :
    ((get_data wFail spAll).result = .error .transport ∨
      (get_data wFail spAll).result = .error .decodeError) ∧
    (get_data wFail spAll).trace =
      [⟨modis_rest_api ++ "MYD09A1" ++ "/bands", [], json_header⟩,
       ⟨modis_rest_api ++ "MYD09A1" ++ "/subset?",
        [("latitude", "39.56499"), ("longitude", "-121.55527"), ("band", "b1"),
         ("startDate", "A2003101"), ("endDate", "A2003111"),
         ("kmAboveBelow", "1"), ("kmLeftRight", "1")], []⟩,
       ⟨modis_rest_api ++ "MYD09A1" ++ "/subset?",
        [("latitude", "39.56499"), ("longitude", "-121.55527"), ("band", "b2"),
         ("startDate", "A2003101"), ("endDate", "A2003111"),
         ("kmAboveBelow", "1"), ("kmLeftRight", "1")], []⟩] := by
  have h := claim_C3 wFail spAll
    [("latitude", "39.56499"), ("longitude", "-121.55527"), ("band", "all"),
     ("startDate", "A2003101"), ("endDate", "A2003111"),
     ("kmAboveBelow", "1"), ("kmLeftRight", "1")]
    "MYD09A1" "BANDS" bandsJson ["b1"] [] "b2"
    (fun _ => "R1") (fun _ => .str "r1")
    (by decide) (by decide) (by decide) rfl rfl rfl
    (by intro b hb; fin_cases hb; exact ⟨rfl, rfl⟩)
    (Or.inl rfl)
  exact ⟨h.1, h.2⟩

/-- C9: get_data mutates the caller's mapping and never restores it: after
any call that passes validation the product entry is gone from the final
mapping; after a successful all-bands run the band entry holds the last
band processed; and after an all-bands run that fails at some band the
band entry holds that failing band. -/
theorem claim_C9 :
    (∀ (w : World) (sp sp' : List (String × String)) (p : String),
      (∀ k ∈ Dict.keys sp, k ∈ Dict.keys default_args) →
      (Dict.keys sp).Nodup →
      Dict.pop sp "product" = some (p, sp') →
      "product" ∉ Dict.keys (get_data w sp).params) ∧
    (∀ (w : World) (sp sp' : List (String × String)) (p : String)
      (bbody : String) (bjson : Json) (bs : List String)
      (body : String → String) (jv : String → Json),
      (∀ k ∈ Dict.keys sp, k ∈ Dict.keys default_args) →
      Dict.pop sp "product" = some (p, sp') →
      Dict.get? sp' "band" = some "all" →
      w.respond ⟨modis_rest_api ++ p ++ "/bands", [], json_header⟩ = some bbody →
      w.decode bbody = some bjson →
      extract_band_names bjson = .ok bs →
      bs.Nodup →
      (∀ b ∈ bs,
        w.respond ⟨modis_rest_api ++ p ++ "/subset?", Dict.set sp' "band" b, []⟩ =
          some (body b) ∧ w.decode (body b) = some (jv b)) →
      bs ≠ [] →
      Dict.get? (get_data w sp).params "band" = bs.getLast?) ∧
    (∀ (w : World) (sp sp' : List (String × String)) (p : String)
      (bbody : String) (bjson : Json) (pre post : List String) (bfail : String)
      (body : String → String) (jv : String → Json),
      (∀ k ∈ Dict.keys sp, k ∈ Dict.keys default_args) →
      Dict.pop sp "product" = some (p, sp') →
      Dict.get? sp' "band" = some "all" →
      w.respond ⟨modis_rest_api ++ p ++ "/bands", [], json_header⟩ = some bbody →
      w.decode bbody = some bjson →
      extract_band_names bjson = .ok (pre ++ bfail :: post) →
      (∀ b ∈ pre,
        w.respond ⟨modis_rest_api ++ p ++ "/subset?", Dict.set sp' "band" b, []⟩ =
          some (body b) ∧ w.decode (body b) = some (jv b)) →
      (w.respond ⟨modis_rest_api ++ p ++ "/subset?",
          Dict.set sp' "band" bfail, []⟩ = none ∨
        ∃ s, w.respond ⟨modis_rest_api ++ p ++ "/subset?",
          Dict.set sp' "band" bfail, []⟩ = some s ∧ w.decode s = none) →
      Dict.get? (get_data w sp).params "band" = some bfail) := by
  refine ⟨?_, ?_, ?_⟩
  · intro w sp sp' p hvalid hnd hp ha
    have hnp : "product" ∉ Dict.keys sp' := Dict.not_mem_keys_pop hnd hp
    rcases (get_data_shape w sp sp' p (param_diff_eq_nil hvalid) hp).2 "product" ha
      with hband | hmem
    · exact absurd hband (by decide)
    · exact hnp hmem
  · intro w sp sp' p bbody bjson bs body jv hvalid hp hb hbr hbd hex hnd hresp hne
    have hout := get_data_all_ok w sp sp' p bbody bjson bs body jv hvalid hp hb
      hbr hbd hex hnd hresp
    rw [hout]
    cases hgl : bs.getLast? with
    | none => exact absurd (List.getLast?_eq_none_iff.mp hgl) hne
    | some l =>
      simp only [hgl]
      exact Dict.get?_set_self sp' "band" l
  · intro w sp sp' p bbody bjson pre post bfail body jv hvalid hp hb hbr hbd hex
      hresp hfail
    obtain ⟨e, hout, -⟩ := get_data_all_fail w sp sp' p bbody bjson pre post bfail
      body jv hvalid hp hb hbr hbd hex hresp hfail
    rw [hout]
    exact Dict.get?_set_self sp' "band" bfail

/-- Witness for C9: after the single-band call on spSingle the product key
is gone; after the successful all-bands call on spAll the band entry holds
b2, the last band; after the failing all-bands call on spAll in wFail the
band entry holds the failing band b2. -/
theorem claim_C9_witness :
    "product" ∉ Dict.keys (get_data wAll spSingle).params ∧
    Dict.get? (get_data wAll spAll).params "band" = some "b2" ∧
    Dict.get? (get_data wFail spAll).params "band" = some "b2" := by
  refine ⟨?_, ?_, ?_⟩
  · exact claim_C9.1 wAll spSingle
      [("latitude", "39.56499"), ("longitude", "-121.55527"),
       ("band", "sur_refl_b06"), ("startDate", "A2003101"),
       ("endDate", "A2003111"), ("kmAboveBelow", "1"), ("kmLeftRight", "1")]
      "MYD09A1" (by decide) (by decide) (by decide)
  · exact claim_C9.2.1 wAll spAll
      [("latitude", "39.56499"), ("longitude", "-121.55527"), ("band", "all"),
       ("startDate", "A2003101"), ("endDate", "A2003111"),
       ("kmAboveBelow", "1"), ("kmLeftRight", "1")]
      "MYD09A1" "BANDS" bandsJson ["b1", "b2"]
      (fun b => if b = "b1" then "R1" else "R2")
      (fun b => if b = "b1" then .str "r1" else .str "r2")
      (by decide) (by decide) (by decide) rfl rfl rfl (by decide)
      (by intro b hb; fin_cases hb <;> exact ⟨rfl, rfl⟩) (by decide)
  · exact claim_C9.2.2 wFail spAll
      [("latitude", "39.56499"), ("longitude", "-121.55527"), ("band", "all"),
       ("startDate", "A2003101"), ("endDate", "A2003111"),
       ("kmAboveBelow", "1"), ("kmLeftRight", "1")]
      "MYD09A1" "BANDS" bandsJson ["b1"] [] "b2"
      (fun _ => "R1") (fun _ => .str "r1")
      (by decide) (by decide) (by decide) rfl rfl rfl
      (by intro b hb; fin_cases hb; exact ⟨rfl, rfl⟩)
      (Or.inl rfl)
